import Mathlib

/-!
Shallow embedding of `src/tuning_app.py`, a guitar-tuner application.

The core pipeline is:
  * `detect_pitch` — Hann-window the audio buffer, take the DFT, pick the
    maximum-magnitude bin (first occurrence), and return the absolute value of
    that bin's FFT frequency (`np.fft.fftfreq` mapping).
  * `get_note_match` — look up the target note in the `NOTES` table and compute
    the cents deviation `1200 * log2(frequency / target_freq)`.
  * `create_tuning_meter` — clamps the needle position to `[-50, 50]`.
  * The classification in `main` — `abs(cents) <= 5` is PERFECT,
    `abs(cents) <= 15` is CLOSE, otherwise OFF.

Python floats are modelled by `ℝ` where the computation stays finite, and by
`PyFloat` (finite / -inf / NaN) where the source can produce a non-finite value
(`np.log2` of a non-positive argument warns and returns `-inf` or `nan`; it
does not raise).  Python exceptions are modelled by `Except` / `Option`.
-/

namespace Tuner

/-- Quality band shown in `main` (`Perfect! 🎯` / `Close! 👍` / `Keep adjusting! 🔄`). -/
inductive Band where
  | PERFECT
  | CLOSE
  | OFF
deriving DecidableEq

/-- The only error the comparator can raise: Python `KeyError` from
`NOTES[target_note]` when the note is not in the table. -/
inductive TunerError where
  | unknownNote
deriving DecidableEq

/-- An IEEE-754 double as produced by the comparator: a finite real, `-inf`
(from `np.log2(0.0)`), or `nan` (from `np.log2` of a negative number). -/
inductive PyFloat where
  | finite (x : ℝ)
  | neginf
  | nan

/-- The `NOTES` dict from `get_note_match` (lines 56-63): the six open-string
guitar notes.  The two-decimal frequencies are exact decimals, hence `ℚ`. -/
def NOTES : List (String × ℚ) :=
  [("E2", 82.41), ("A2", 110.00), ("D3", 146.83),
   ("G3", 196.00), ("B3", 246.94), ("E4", 329.63)]

/-- Python dict lookup `NOTES[target_note]`, as an association-list scan
returning `none` where Python raises `KeyError`. -/
def lookupNote : List (String × ℚ) → String → Option ℚ
  | [], _ => none
  | (k, v) :: rest, s => if s = k then some v else lookupNote rest s

/-- `np.log2` on a Python float: defined for positive arguments, `-inf` at `0.0`
(divide-by-zero warning, no exception), `nan` for negative arguments. -/
noncomputable def pyLog2 (x : ℝ) : PyFloat :=
  if 0 < x then .finite (Real.logb 2 x)
  else if x = 0 then .neginf
  else .nan

/-- Multiplication of the log by the positive constant `1200` in
`1200 * np.log2(...)`: `1200 * (-inf) = -inf` and `1200 * nan = nan` in IEEE. -/
noncomputable def centsScale : PyFloat → PyFloat
  | .finite x => .finite (1200 * x)
  | .neginf => .neginf
  | .nan => .nan

/-- `get_note_match(frequency, target_note)` (lines 52-68): look up the target
frequency and return `(target_freq, 1200 * log2(frequency / target_freq))`.
The only failure is `KeyError` on an unknown note; a non-positive frequency
flows through `np.log2` into `-inf`/`nan` without raising. -/
noncomputable def get_note_match (frequency : ℝ) (target_note : String) :
    Except TunerError (ℚ × PyFloat) :=
  match lookupNote NOTES target_note with
  | none => .error .unknownNote
  | some target_freq =>
      .ok (target_freq, centsScale (pyLog2 (frequency / (target_freq : ℝ))))

/-- The status classification in `main` (lines 172-180):
`abs(cents) <= 5` → PERFECT, `elif abs(cents) <= 15` → CLOSE, `else` → OFF. -/
noncomputable def classify (cents : ℝ) : Band :=
  if |cents| ≤ 5 then .PERFECT
  else if |cents| ≤ 15 then .CLOSE
  else .OFF

/-- The needle position drawn by `create_tuning_meter` (line 86):
`cents = max(min(cents, 50), -50)`. -/
noncomputable def create_tuning_meter (cents : ℝ) : ℝ :=
  max (min cents 50) (-50)

/-- One display frame of the recording loop in `main` (lines 164-180): the
meter is drawn from the clamped cents, the status text from the raw `cents`
variable (which `create_tuning_meter` does not mutate — the clamp is local). -/
noncomputable def mainFrame (cents : ℝ) : ℝ × Band :=
  (create_tuning_meter cents, classify cents)

/-- The Hann window weight at index `i` of an `N`-point window, per the numpy
documentation of `np.hanning`: `0.5 - 0.5*cos(2*pi*n/(M-1))`, `0 ≤ n ≤ M-1`. -/
noncomputable def hannWeight (N i : ℕ) : ℝ :=
  0.5 - 0.5 * Real.cos (2 * Real.pi * i / ((N : ℝ) - 1))

/-- `np.hanning(M)`: the raised-cosine window.  numpy special-cases `M == 1`
to `ones(1)` (the cosine formula would divide by zero); `M ≤ 0` gives an
empty array, matched here by mapping over `List.range 0`. -/
noncomputable def hanning (N : ℕ) : List ℝ :=
  if N = 1 then [1] else (List.range N).map (hannWeight N)

/-- `audio_data * window` in `detect_pitch` (line 42): element-wise product of
the buffer with the Hann window of the buffer's length. -/
noncomputable def windowed (audio_data : List ℝ) : List ℝ :=
  List.zipWith (· * ·) audio_data (hanning audio_data.length)

/-- Bin `k` of the length-`N` discrete Fourier transform computed by
`scipy.fftpack.fft` (line 44): `X_k = Σ_j x_j * exp(-2*pi*I*j*k/N)`. -/
noncomputable def dftBin (w : List ℝ) (k : ℕ) : ℂ :=
  ∑ j ∈ Finset.range w.length,
    (w.getD j 0 : ℂ) * Complex.exp (-(2 * Real.pi * Complex.I * j * k / w.length))

/-- `magnitude = np.abs(fft_data)` (line 47) applied to the DFT of the
windowed buffer: the list of bin magnitudes, indexed by bin number. -/
noncomputable def magnitudes (audio_data : List ℝ) : List ℝ :=
  (List.range audio_data.length).map (fun k => Complex.abs (dftBin (windowed audio_data) k))

/-- The integer numerator of `np.fft.fftfreq(n)[k]`: numpy lays out
`[0, 1, ..., (n-1)//2, -(n//2), ..., -1]`, so index `k` holds `k` when
`k < (n-1)//2 + 1` and `k - n` otherwise. -/
def fftfreqIdx (n k : ℕ) : ℤ :=
  if k < (n - 1) / 2 + 1 then (k : ℤ) else (k : ℤ) - (n : ℤ)

/-- `np.fft.fftfreq(n, d)[k]` with `d = 1/sample_rate` (line 45): the
numerator divided by `n*d`, i.e. times `rate/n`. -/
noncomputable def fftfreq (n k : ℕ) (rate : ℝ) : ℝ :=
  (fftfreqIdx n k : ℝ) * rate / (n : ℝ)

/-- `np.argmax` (line 48): index of the maximum element; on ties numpy
documents that the first occurrence is returned. -/
noncomputable def argmaxIdx : List ℝ → ℕ
  | [] => 0
  | [_] => 0
  | v :: w :: rest =>
      if v < (w :: rest).getD (argmaxIdx (w :: rest)) 0 then argmaxIdx (w :: rest) + 1
      else 0

/-- `detect_pitch(audio_data, sample_rate)` (lines 37-50): window, DFT, pick
the peak-magnitude bin, return the absolute value of its frequency.  On an
empty buffer `scipy.fftpack.fft` raises `ValueError` ("invalid number of data
points"), modelled by `none`; every non-empty buffer returns a frequency. -/
noncomputable def detect_pitch (audio_data : List ℝ) (sample_rate : ℝ) : Option ℝ :=
  if audio_data.length = 0 then none
  else some |fftfreq audio_data.length (argmaxIdx (magnitudes audio_data)) sample_rate|

/-! ### Helper lemmas about the note table -/

/-- A successful association-list lookup returns one of the stored values. -/
theorem lookupNote_mem : ∀ (l : List (String × ℚ)) (s : String) (v : ℚ),
    lookupNote l s = some v → v ∈ l.map Prod.snd
  | [], s, v, h => by simp [lookupNote] at h
  | (k, w) :: rest, s, v, h => by
    simp only [lookupNote] at h
    split_ifs at h with hk
    · simp only [Option.some.injEq] at h
      simp [h]
    · exact List.mem_cons_of_mem _ (lookupNote_mem rest s v h)

/-- Every frequency in the `NOTES` table is positive. -/
theorem lookupNote_pos {s : String} {v : ℚ} (h : lookupNote NOTES s = some v) :
    0 < v := by
  have hv := lookupNote_mem NOTES s v h
  simp only [NOTES, List.map_cons, List.map_nil, List.mem_cons, List.not_mem_nil,
    or_false] at hv
  rcases hv with rfl | rfl | rfl | rfl | rfl | rfl <;> norm_num

/-- Evaluation of the comparator at a positive frequency and a known note:
the cents deviation is finite and equal to `1200 * log2(f / f_t)`. -/
theorem get_note_match_eval (f : ℝ) (note : String) (ft : ℚ) (hf : 0 < f)
    (hn : lookupNote NOTES note = some ft) :
    get_note_match f note = .ok (ft, .finite (1200 * Real.logb 2 (f / (ft : ℝ)))) := by
  have hft : (0 : ℝ) < (ft : ℚ) := by exact_mod_cast lookupNote_pos hn
  unfold get_note_match
  rw [hn]
  have hdiv : (0 : ℝ) < f / (ft : ℝ) := div_pos hf hft
  simp [pyLog2, centsScale, hdiv]

/-! ### Helper lemmas about the estimator -/

/-- The first max-magnitude index is in bounds. -/
theorem argmaxIdx_lt_length : ∀ (l : List ℝ), l ≠ [] → argmaxIdx l < l.length
  | [_], _ => by simp [argmaxIdx]
  | v :: w :: rest, _ => by
    simp only [argmaxIdx]
    split
    · exact Nat.succ_lt_succ (argmaxIdx_lt_length (w :: rest) (by simp))
    · simp

/-- The element at `argmaxIdx` dominates every element of the list. -/
theorem argmaxIdx_is_max : ∀ (l : List ℝ) (i : ℕ), i < l.length →
    l.getD i 0 ≤ l.getD (argmaxIdx l) 0
  | [_], 0, _ => le_refl _
  | [_], _ + 1, hi => absurd hi (by simp)
  | v :: w :: rest, i, hi => by
    simp only [argmaxIdx]
    split_ifs with hv
    · rw [List.getD_cons_succ]
      cases i with
      | zero => rw [List.getD_cons_zero]; exact le_of_lt hv
      | succ i =>
        rw [List.getD_cons_succ]
        exact argmaxIdx_is_max (w :: rest) i (by simpa using hi)
    · rw [List.getD_cons_zero]
      cases i with
      | zero => rw [List.getD_cons_zero]
      | succ i =>
        rw [List.getD_cons_succ]
        exact le_trans (argmaxIdx_is_max (w :: rest) i (by simpa using hi)) (not_lt.mp hv)

/-- Ties break toward the lowest index: everything strictly before the chosen
index is strictly smaller (`np.argmax` returns the first occurrence). -/
theorem argmaxIdx_is_first : ∀ (l : List ℝ) (i : ℕ), i < argmaxIdx l →
    l.getD i 0 < l.getD (argmaxIdx l) 0
  | [], i, hi => absurd hi (by simp [argmaxIdx])
  | [_], i, hi => absurd hi (by simp [argmaxIdx])
  | v :: w :: rest, i, hi => by
    by_cases hv : v < (w :: rest).getD (argmaxIdx (w :: rest)) 0
    · simp only [argmaxIdx, if_pos hv] at hi ⊢
      rw [List.getD_cons_succ]
      cases i with
      | zero => rw [List.getD_cons_zero]; exact hv
      | succ i =>
        rw [List.getD_cons_succ]
        exact argmaxIdx_is_first (w :: rest) i (Nat.lt_of_succ_lt_succ hi)
    · simp only [argmaxIdx, if_neg hv] at hi
      exact absurd hi (Nat.not_lt_zero i)

/-- On a constant list the first maximum is at index 0. -/
theorem argmaxIdx_of_const : ∀ (l : List ℝ) (c : ℝ), (∀ x ∈ l, x = c) → argmaxIdx l = 0
  | [], _, _ => rfl
  | [_], _, _ => rfl
  | v :: w :: rest, c, h => by
    have hm : argmaxIdx (w :: rest) = 0 :=
      argmaxIdx_of_const (w :: rest) c (fun x hx => h x (List.mem_cons_of_mem _ hx))
    have hv : v = c := h v (List.mem_cons_self _ _)
    have hw : w = c := h w (by simp)
    simp only [argmaxIdx, hm, List.getD_cons_zero]
    rw [if_neg (by rw [hv, hw]; exact lt_irrefl c)]

theorem hanning_length (N : ℕ) : (hanning N).length = N := by
  unfold hanning
  split_ifs with h
  · simp [h]
  · simp

theorem getD_zipWith_mul (l1 l2 : List ℝ) (i : ℕ) (h1 : i < l1.length)
    (h2 : i < l2.length) :
    (List.zipWith (· * ·) l1 l2).getD i 0 = l1.getD i 0 * l2.getD i 0 := by
  rw [List.getD_eq_getElem?_getD, List.getElem?_zipWith,
    List.getElem?_eq_getElem h1, List.getElem?_eq_getElem h2,
    List.getD_eq_getElem _ _ h1, List.getD_eq_getElem _ _ h2]
  rfl

theorem getD_range_map (n i : ℕ) (f : ℕ → ℝ) (h : i < n) :
    ((List.range n).map f).getD i 0 = f i := by
  rw [List.getD_eq_getElem ((List.range n).map f) 0 (by simp [h])]
  simp

theorem hanning_getD (N i : ℕ) (hN : 2 ≤ N) (hi : i < N) :
    (hanning N).getD i 0 = hannWeight N i := by
  unfold hanning
  rw [if_neg (by omega)]
  exact getD_range_map N i (hannWeight N) hi

theorem windowed_getD (xs : List ℝ) (i : ℕ) (hN : 2 ≤ xs.length)
    (hi : i < xs.length) :
    (windowed xs).getD i 0 = xs.getD i 0 * hannWeight xs.length i := by
  unfold windowed
  rw [getD_zipWith_mul xs (hanning xs.length) i hi (by rw [hanning_length]; exact hi),
    hanning_getD xs.length i hN hi]

theorem magnitudes_length (xs : List ℝ) : (magnitudes xs).length = xs.length := by
  unfold magnitudes
  simp

theorem magnitudes_getD (xs : List ℝ) (k : ℕ) (hk : k < xs.length) :
    (magnitudes xs).getD k 0 = Complex.abs (dftBin (windowed xs) k) := by
  unfold magnitudes
  exact getD_range_map _ k _ hk

theorem fftfreq_low (n k : ℕ) (R : ℝ) (hk : k < (n + 1) / 2) :
    fftfreq n k R = (k : ℝ) * R / (n : ℝ) := by
  unfold fftfreq fftfreqIdx
  rw [if_pos (by omega)]
  norm_num

theorem fftfreq_high (n k : ℕ) (R : ℝ) (hk1 : (n + 1) / 2 ≤ k) (hk2 : k < n) :
    fftfreq n k R = ((k : ℝ) - (n : ℝ)) * R / (n : ℝ) := by
  unfold fftfreq fftfreqIdx
  rw [if_neg (by omega)]
  push_cast
  ring

theorem zipWith_mul_replicate_zero : ∀ (n : ℕ) (l : List ℝ) (j : ℕ),
    (List.zipWith (· * ·) (List.replicate n (0 : ℝ)) l).getD j 0 = 0
  | 0, _, _ => by simp
  | _ + 1, [], _ => by simp
  | _ + 1, a :: t, 0 => by simp
  | n + 1, a :: t, j + 1 => by
    rw [List.replicate_succ, List.zipWith_cons_cons, List.getD_cons_succ]
    exact zipWith_mul_replicate_zero n t j

theorem windowed_replicate_getD (N j : ℕ) :
    (windowed (List.replicate N (0 : ℝ))).getD j 0 = 0 := by
  unfold windowed
  exact zipWith_mul_replicate_zero N _ j

theorem dftBin_of_zero (w : List ℝ) (h : ∀ j, w.getD j 0 = 0) (k : ℕ) :
    dftBin w k = 0 := by
  unfold dftBin
  exact Finset.sum_eq_zero fun j _ => by rw [h j]; simp

theorem magnitudes_replicate_zero (N : ℕ) :
    ∀ x ∈ magnitudes (List.replicate N (0 : ℝ)), x = 0 := by
  intro x hx
  unfold magnitudes at hx
  rcases List.mem_map.mp hx with ⟨k, _, rfl⟩
  rw [dftBin_of_zero _ (windowed_replicate_getD N) k]
  simp

/-- A one-sample buffer is not rejected: `np.hanning(1) = [1]`, the 1-point
DFT has a single bin at frequency 0, so the estimator returns 0 Hz. -/
theorem detect_pitch_single (x R : ℝ) : detect_pitch [x] R = some 0 := by
  unfold detect_pitch
  simp only [List.length_singleton]
  rw [if_neg one_ne_zero]
  have hm : magnitudes [x] = [Complex.abs (dftBin (windowed [x]) 0)] := by
    unfold magnitudes
    rw [List.length_singleton, show List.range 1 = [0] from rfl, List.map_singleton]
  rw [hm]
  have ha : argmaxIdx [Complex.abs (dftBin (windowed [x]) 0)] = 0 := rfl
  rw [ha, fftfreq_low 1 0 R (by norm_num)]
  norm_num

/-! ### Claims about the estimator -/

/-- C2 counterexample: for the even buffer length N = 2, bin k = 1 satisfies
k ≤ N/2, yet `np.fft.fftfreq` places the Nyquist frequency there with a
negative sign: with R = 2 the code maps bin 1 to -1, while the claim's
formula `k*R/N` gives +1. -/
theorem c2_nyquist_counterexample :
    (1 : ℕ) ≤ 2 / 2 ∧ fftfreq 2 1 2 = -1 ∧ (1 : ℝ) * 2 / 2 = 1 ∧ (-1 : ℝ) ≠ 1 := by
  refine ⟨by norm_num, ?_, by norm_num, by norm_num⟩
  unfold fftfreq fftfreqIdx
  norm_num

/-- C2 (amended): for every buffer of N ≥ 2 samples at rate R, the estimator
(a) multiplies sample i by the Hann weight `0.5 - 0.5*cos(2*pi*i/(N-1))`,
(b) takes magnitudes of the length-N DFT of the windowed buffer, (c) maps
bin k to frequency `k*R/N` for `k < (N+1)/2` (for even N the Nyquist bin
`k = N/2` instead maps to the negative `-R/2`) and to the negative mirror
`(k-N)*R/N` for `(N+1)/2 ≤ k < N`, (d) selects a maximum-magnitude bin with
ties broken by lowest bin index, and (e) returns the absolute value of that
bin's mapped frequency. -/
theorem c2_pipeline_amended (xs : List ℝ) (R : ℝ) (hN : 2 ≤ xs.length) :
    (∀ i, i < xs.length → (windowed xs).getD i 0 =
      xs.getD i 0 * (0.5 - 0.5 * Real.cos (2 * Real.pi * i / ((xs.length : ℝ) - 1)))) ∧
    (∀ k, k < xs.length →
      (magnitudes xs).getD k 0 = Complex.abs (dftBin (windowed xs) k)) ∧
    (∀ k, k < (xs.length + 1) / 2 →
      fftfreq xs.length k R = (k : ℝ) * R / (xs.length : ℝ)) ∧
    (∀ k, (xs.length + 1) / 2 ≤ k → k < xs.length →
      fftfreq xs.length k R = ((k : ℝ) - (xs.length : ℝ)) * R / (xs.length : ℝ)) ∧
    (argmaxIdx (magnitudes xs) < xs.length ∧
      (∀ i, i < xs.length →
        (magnitudes xs).getD i 0 ≤ (magnitudes xs).getD (argmaxIdx (magnitudes xs)) 0) ∧
      (∀ i, i < argmaxIdx (magnitudes xs) →
        (magnitudes xs).getD i 0 < (magnitudes xs).getD (argmaxIdx (magnitudes xs)) 0)) ∧
    detect_pitch xs R = some |fftfreq xs.length (argmaxIdx (magnitudes xs)) R| := by
  refine ⟨fun i hi => windowed_getD xs i hN hi, fun k hk => magnitudes_getD xs k hk,
    fun k hk => fftfreq_low _ k R hk, fun k hk1 hk2 => fftfreq_high _ k R hk1 hk2,
    ⟨?_, fun i hi => argmaxIdx_is_max _ i (by rw [magnitudes_length]; exact hi),
      fun i hi => argmaxIdx_is_first _ i hi⟩, ?_⟩
  · rw [← magnitudes_length xs]
    exact argmaxIdx_lt_length _ (List.length_pos.mp (by rw [magnitudes_length]; omega))
  · unfold detect_pitch
    rw [if_neg (by omega)]

theorem c2_pipeline_amended_witness :
    2 ≤ ([1, 0] : List ℝ).length ∧
    detect_pitch ([1, 0] : List ℝ) 1 =
      some |fftfreq ([1, 0] : List ℝ).length (argmaxIdx (magnitudes [1, 0])) 1| :=
  ⟨by simp, (c2_pipeline_amended [1, 0] 1 (by simp)).2.2.2.2.2⟩

/-- C4 counterexample: the buffer `[1.0]` has fewer than 2 samples, yet the
estimator returns the frequency 0 Hz instead of failing with any error. -/
theorem c4_single_sample_counterexample :
    detect_pitch [1] 44100 = some 0 :=
  detect_pitch_single 1 44100

/-- C4 (amended): the estimator does not validate short buffers: a 1-sample
buffer returns 0 Hz (the sole DFT bin sits at frequency 0); only the empty
buffer fails, and that failure is the library's zero-length-FFT `ValueError`,
not a typed `InvalidInput` error. -/
theorem c4_short_buffer_amended (x R : ℝ) :
    detect_pitch [x] R = some 0 ∧ detect_pitch ([] : List ℝ) R = none :=
  ⟨detect_pitch_single x R, rfl⟩

/-- C8: an all-zero buffer of any length N ≥ 2 at any positive sample rate
makes the estimator return exactly 0 Hz as a valid result (all DFT magnitudes
are 0; the first-occurrence argmax picks the DC bin at frequency 0). -/
theorem c8_silence (N : ℕ) (R : ℝ) (hN : 2 ≤ N) (_hR : 0 < R) :
    detect_pitch (List.replicate N 0) R = some 0 := by
  unfold detect_pitch
  rw [List.length_replicate, if_neg (by omega),
    argmaxIdx_of_const _ 0 (magnitudes_replicate_zero N),
    fftfreq_low N 0 R (by omega)]
  norm_num

theorem c8_silence_witness :
    2 ≤ 2 ∧ (0 : ℝ) < 44100 ∧ detect_pitch (List.replicate 2 0) 44100 = some 0 :=
  ⟨le_refl 2, by norm_num, c8_silence 2 44100 (le_refl 2) (by norm_num)⟩

/-! ### Claims about the comparator -/

/-- C1: for every positive frequency `f` and note in the table with target
frequency `f_t`, the comparator returns `centsOff = 1200 * log2 (f / f_t)`
(exactly, in the real-number model, hence within any floating tolerance);
at `f = f_t` the cents are `0`, and at `f = 2 * f_t` they are `1200`. -/
theorem c1_cents_formula (f : ℝ) (note : String) (ft : ℚ) (hf : 0 < f)
    (hn : lookupNote NOTES note = some ft) :
    get_note_match f note = .ok (ft, .finite (1200 * Real.logb 2 (f / (ft : ℝ)))) ∧
    get_note_match (ft : ℝ) note = .ok (ft, .finite 0) ∧
    get_note_match (2 * (ft : ℝ)) note = .ok (ft, .finite 1200) := by
  have hft : (0 : ℝ) < (ft : ℝ) := by exact_mod_cast lookupNote_pos hn
  refine ⟨get_note_match_eval f note ft hf hn, ?_, ?_⟩
  · rw [get_note_match_eval (ft : ℝ) note ft hft hn, div_self (ne_of_gt hft),
      Real.logb_one, mul_zero]
  · rw [get_note_match_eval (2 * (ft : ℝ)) note ft (by positivity) hn,
      mul_div_assoc, div_self (ne_of_gt hft), mul_one,
      Real.logb_self_eq_one (by norm_num : (1 : ℝ) < 2)]
    norm_num

theorem c1_cents_formula_witness :
    0 < (1 : ℝ) ∧ lookupNote NOTES "E2" = some 82.41 ∧
    (get_note_match 1 "E2" =
        .ok (82.41, .finite (1200 * Real.logb 2 (1 / ((82.41 : ℚ) : ℝ)))) ∧
      get_note_match ((82.41 : ℚ) : ℝ) "E2" = .ok (82.41, .finite 0) ∧
      get_note_match (2 * ((82.41 : ℚ) : ℝ)) "E2" = .ok (82.41, .finite 1200)) :=
  ⟨by norm_num, by simp [lookupNote, NOTES],
    c1_cents_formula 1 "E2" 82.41 (by norm_num) (by simp [lookupNote, NOTES])⟩

/-- C5 counterexample: at frequency `0` (which is ≤ 0) and the valid note
`"E2"`, the comparator does not fail with any error: `np.log2(0.0)` evaluates
to `-inf` (a warning, not an exception) and the call returns `(82.41, -inf)`. -/
theorem c5_zero_freq_counterexample :
    get_note_match 0 "E2" = .ok (82.41, .neginf) ∧
    ∀ e : TunerError, get_note_match 0 "E2" ≠ .error e := by
  have h : get_note_match 0 "E2" = .ok (82.41, .neginf) := by
    unfold get_note_match
    rw [show lookupNote NOTES "E2" = some 82.41 from by simp [lookupNote, NOTES]]
    simp [pyLog2, centsScale, zero_div]
  exact ⟨h, fun e hc => by rw [h] at hc; exact Except.noConfusion hc⟩

/-- C5 (amended): for every frequency ≤ 0 and note present in the table, the
comparator does not fail: it returns the target frequency paired with `-inf`
cents at frequency `0` and `NaN` cents at a negative frequency.  No
`InvalidInput` error exists in the code; only unknown notes raise. -/
theorem c5_nonpositive_amended (f : ℝ) (note : String) (ft : ℚ) (hf : f ≤ 0)
    (hn : lookupNote NOTES note = some ft) :
    get_note_match f note = .ok (ft, if f = 0 then .neginf else .nan) := by
  have hft : (0 : ℝ) < (ft : ℝ) := by exact_mod_cast lookupNote_pos hn
  unfold get_note_match
  rw [hn]
  rcases hf.lt_or_eq with hlt | heq
  · have hdiv : f / (ft : ℝ) < 0 := div_neg_of_neg_of_pos hlt hft
    rw [if_neg (ne_of_lt hlt)]
    simp [pyLog2, centsScale, not_lt.mpr hdiv.le, ne_of_lt hdiv]
  · subst heq
    simp [pyLog2, centsScale, zero_div]

theorem c5_nonpositive_amended_witness :
    (0 : ℝ) ≤ 0 ∧ lookupNote NOTES "A2" = some 110.00 ∧
    get_note_match 0 "A2" = .ok (110.00, if (0 : ℝ) = 0 then .neginf else .nan) :=
  ⟨le_refl 0, by simp [lookupNote, NOTES],
    c5_nonpositive_amended 0 "A2" 110.00 (le_refl 0) (by simp [lookupNote, NOTES])⟩

/-- C6: for every positive frequency and target-note string not present in
the table, the comparator fails with the unknown-note error (the Python
`KeyError` raised by `NOTES[target_note]`), surfaced to the caller. -/
theorem c6_unknown_note (f : ℝ) (note : String) (_hf : 0 < f)
    (hn : lookupNote NOTES note = none) :
    get_note_match f note = .error .unknownNote := by
  unfold get_note_match
  rw [hn]

theorem c6_unknown_note_witness :
    0 < (440 : ℝ) ∧ lookupNote NOTES "C4" = none ∧
    get_note_match 440 "C4" = .error .unknownNote :=
  ⟨by norm_num, by simp [lookupNote, NOTES],
    c6_unknown_note 440 "C4" (by norm_num) (by simp [lookupNote, NOTES])⟩

/-- C7: the note table maps exactly the six keys E2, A2, D3, G3, B3, E4 to
82.41, 110.00, 146.83, 196.00, 246.94, 329.63 Hz respectively, and these
frequencies are strictly increasing in the canonical string order. -/
theorem c7_note_table :
    NOTES.map Prod.fst = ["E2", "A2", "D3", "G3", "B3", "E4"] ∧
    lookupNote NOTES "E2" = some 82.41 ∧
    lookupNote NOTES "A2" = some 110.00 ∧
    lookupNote NOTES "D3" = some 146.83 ∧
    lookupNote NOTES "G3" = some 196.00 ∧
    lookupNote NOTES "B3" = some 246.94 ∧
    lookupNote NOTES "E4" = some 329.63 ∧
    ((82.41 : ℚ) < 110.00 ∧ (110.00 : ℚ) < 146.83 ∧ (146.83 : ℚ) < 196.00 ∧
      (196.00 : ℚ) < 246.94 ∧ (246.94 : ℚ) < 329.63) :=
  ⟨by simp [NOTES], by simp [lookupNote, NOTES], by simp [lookupNote, NOTES],
    by simp [lookupNote, NOTES], by simp [lookupNote, NOTES],
    by simp [lookupNote, NOTES], by simp [lookupNote, NOTES],
    by norm_num, by norm_num, by norm_num, by norm_num, by norm_num⟩

/-- C10: for a note in the table, the cents deviation computed by the
comparator is strictly increasing in the input frequency, and it is negative
strictly below the target frequency, zero at it, positive strictly above. -/
theorem c10_cents_monotone (note : String) (ft : ℚ) (f1 f2 : ℝ)
    (hn : lookupNote NOTES note = some ft) (h1 : 0 < f1) (h12 : f1 < f2) :
    ∃ a b : ℝ,
      get_note_match f1 note = .ok (ft, .finite a) ∧
      get_note_match f2 note = .ok (ft, .finite b) ∧
      a < b ∧
      (f1 < (ft : ℝ) → a < 0) ∧ (f1 = (ft : ℝ) → a = 0) ∧
      ((ft : ℝ) < f1 → 0 < a) := by
  have hft : (0 : ℝ) < (ft : ℝ) := by exact_mod_cast lookupNote_pos hn
  have h2 : 0 < f2 := h1.trans h12
  refine ⟨_, _, get_note_match_eval f1 note ft h1 hn,
    get_note_match_eval f2 note ft h2 hn, ?_, ?_, ?_, ?_⟩
  · have hdd : f1 / (ft : ℝ) < f2 / (ft : ℝ) := by gcongr
    have := Real.logb_lt_logb (by norm_num : (1 : ℝ) < 2) (div_pos h1 hft) hdd
    linarith
  · intro hlt
    have hx : f1 / (ft : ℝ) < 1 := (div_lt_one hft).mpr hlt
    have := Real.logb_neg (by norm_num : (1 : ℝ) < 2) (div_pos h1 hft) hx
    linarith
  · intro heq
    rw [heq, div_self (ne_of_gt hft), Real.logb_one, mul_zero]
  · intro hgt
    have hx : 1 < f1 / (ft : ℝ) := (one_lt_div hft).mpr hgt
    have := Real.logb_pos (by norm_num : (1 : ℝ) < 2) hx
    linarith

theorem c10_cents_monotone_witness :
    lookupNote NOTES "A2" = some 110.00 ∧ 0 < (55 : ℝ) ∧ (55 : ℝ) < 110 ∧
    (∃ a b : ℝ,
      get_note_match 55 "A2" = .ok (110.00, .finite a) ∧
      get_note_match 110 "A2" = .ok (110.00, .finite b) ∧
      a < b ∧
      ((55 : ℝ) < ((110.00 : ℚ) : ℝ) → a < 0) ∧
      ((55 : ℝ) = ((110.00 : ℚ) : ℝ) → a = 0) ∧
      (((110.00 : ℚ) : ℝ) < 55 → 0 < a)) :=
  ⟨by simp [lookupNote, NOTES], by norm_num, by norm_num,
    c10_cents_monotone "A2" 110.00 55 110 (by simp [lookupNote, NOTES])
      (by norm_num) (by norm_num)⟩

/-! ### Claims about classification and display -/

/-- C3: the quality-band classification yields PERFECT exactly when
`|cents| ≤ 5`, CLOSE exactly when `5 < |cents| ≤ 15`, OFF exactly when
`|cents| > 15`, with both thresholds inclusive toward the tighter band, and
it is symmetric under negating (flat) deviations. -/
theorem c3_classification (c : ℝ) :
    (classify c = .PERFECT ↔ |c| ≤ 5) ∧
    (classify c = .CLOSE ↔ 5 < |c| ∧ |c| ≤ 15) ∧
    (classify c = .OFF ↔ 15 < |c|) ∧
    classify (-c) = classify c := by
  have habs : classify (-c) = classify c := by unfold classify; rw [abs_neg]
  refine ⟨?_, ?_, ?_, habs⟩ <;>
    (unfold classify; split_ifs with h1 h2 <;> simp_all <;> linarith)

/-- C9: in one frame of `main`, the needle drawn by `create_tuning_meter` is
clamped to `[-50, 50]` while the band classification consumes the unclamped
`cents` variable; for `|cents| > 50` the displayed needle differs from the
cents value, and the classification input is the unclamped value. -/
theorem c9_clamp_asymmetry (c : ℝ) :
    -50 ≤ (mainFrame c).1 ∧ (mainFrame c).1 ≤ 50 ∧
    (mainFrame c).2 = classify c ∧
    (50 < |c| → (mainFrame c).1 ≠ c) := by
  refine ⟨le_max_right _ _, max_le (min_le_right _ _) (by norm_num), rfl, ?_⟩
  intro h
  rcases lt_abs.mp h with hc | hc
  · exact ne_of_lt (lt_of_le_of_lt (max_le (min_le_right _ _) (by norm_num)) hc)
  · exact ne_of_gt (lt_of_lt_of_le (by linarith : c < -50) (le_max_right _ _))

theorem c9_clamp_asymmetry_witness :
    50 < |(100 : ℝ)| ∧ (mainFrame 100).1 ≠ 100 :=
  ⟨by norm_num, (c9_clamp_asymmetry 100).2.2.2 (by norm_num)⟩

end Tuner
